import Mathlib

/-!
# Verification of the iCIMS recruitment dashboard's metrics engine

Shallow embedding of `src/icims_dashboard.py`. Dates are modelled as
proleptic-Gregorian day numbers (days since 0000-03-01, the era origin of
the standard civil-from-days algorithm); `pd.to_datetime(_, errors='coerce')`
is modelled on ISO `YYYY-MM-DD` strings, with every unparseable string
becoming `none` (pandas `NaT`).  Pandas `groupby` sorts group keys
ascending and drops null keys; `pd.merge(how='outer')` on unique keys
produces one row per key of the sorted union of both key sets (missing side
null); `Series.mean` skips nulls and is null on an all-null series.  Floats
that the source only ever fills with exact small integers and ratios are
modelled as `Rat`.
-/

namespace ICIMS

/-- Gregorian leap-year test. -/
def isLeapYear (y : Nat) : Bool :=
  y % 4 == 0 && (y % 100 != 0 || y % 400 == 0)

/-- Number of days in a month of a given year. -/
def daysInMonth (y m : Nat) : Nat :=
  if m == 2 then (if isLeapYear y then 29 else 28)
  else if m == 4 || m == 6 || m == 9 || m == 11 then 30
  else 31

/-- Day number of a civil date: days since 0000-03-01 (standard
era-based civil-to-days algorithm, restricted to `y ≥ 1`). -/
def daysFromCivil (y m d : Nat) : Nat :=
  let yShift := if m ≤ 2 then y - 1 else y
  let era := yShift / 400
  let yoe := yShift % 400
  let mp := (m + 9) % 12
  let doy := (153 * mp + 2) / 5 + (d - 1)
  let doe := yoe * 365 + yoe / 4 - yoe / 100 + doy
  era * 146097 + doe

/-- Split a character list at every dash (`"-".splitOn` on the string's
characters). -/
def splitOnDash : List Char → List (List Char)
  | [] => [[]]
  | c :: rest =>
    let r := splitOnDash rest
    if c = '-' then [] :: r
    else match r with
      | [] => [[c]]
      | g :: gs => (c :: g) :: gs

/-- Read a non-empty all-digit character list as a decimal number,
`none` otherwise. -/
def digitsToNat : List Char → Nat → Option Nat
  | [], acc => some acc
  | c :: cs, acc =>
    if 48 ≤ c.toNat ∧ c.toNat ≤ 57 then
      digitsToNat cs (acc * 10 + (c.toNat - 48))
    else none

/-- `none` on an empty field, otherwise its decimal value. -/
def fieldToNat (cs : List Char) : Option Nat :=
  if cs.isEmpty then none else digitsToNat cs 0

/-- Models `pd.to_datetime(s, errors='coerce')` on date strings: an ISO
`YYYY-MM-DD` string denoting a valid civil date parses to its day number;
anything else (malformed, missing, out-of-range) coerces to `none`
(pandas `NaT`). -/
def to_datetime (s : String) : Option Nat :=
  match splitOnDash s.data with
  | [ys, ms, ds] =>
    match fieldToNat ys, fieldToNat ms, fieldToNat ds with
    | some y, some m, some d =>
      if 1 ≤ y ∧ 1 ≤ m ∧ m ≤ 12 ∧ 1 ≤ d ∧ d ≤ daysInMonth y m then
        some (daysFromCivil y m d)
      else none
    | _, _, _ => none
  | _ => none

/-- A job record as fetched from the API (fields of the `fields` request
parameter in `get_jobs`); date fields are the raw strings. -/
structure Job where
  id : String
  title : String
  department : String
  location : String
  status : String
  dateposted : String
  dateclosed : String
  recruiter : String
deriving Repr, DecidableEq

/-- A candidate record as fetched from the API (fields of the `fields`
request parameter in `get_candidates`). -/
structure Candidate where
  id : String
  firstname : String
  lastname : String
  email : String
  phone : String
  status : String
  source : String
  dateadded : String
  jobid : String
  recruiter : String
deriving Repr, DecidableEq

/-- `_preprocess_data`: `days_to_fill = (dateclosed - dateposted).dt.days`.
If either date fails to parse the subtraction involves `NaT` and the result
is null. -/
def days_to_fill (j : Job) : Option Int :=
  match to_datetime j.dateclosed, to_datetime j.dateposted with
  | some c, some p => some ((c : Int) - (p : Int))
  | _, _ => none

/-- `_preprocess_data`: week bucket `dateadded.dt.to_period('W')` (weeks
Monday..Sunday; day number 719468 = 1970-01-01 is a Thursday, so day
numbers ≡ 5 (mod 7) are Mondays and `(n + 2) / 7` is constant exactly on
each Monday..Sunday block).  Null date gives null bucket. -/
def week (c : Candidate) : Option Nat :=
  (to_datetime c.dateadded).map (fun d => (d + 2) / 7)

/-- Arithmetic mean of a list of rationals (`Series.mean` on a non-null
series). -/
def mean (xs : List Rat) : Rat := xs.sum / (xs.length : Rat)

/-- `calculate_metrics` lines 183-185: the mean of `days_to_fill` over the
rows where it is not null (`notna`), and `0` when no row has it defined
(`filled_jobs.empty`). -/
def avg_time_to_fill (jobs : List Job) : Rat :=
  let filled := jobs.filter (fun j => (days_to_fill j).isSome)
  if filled.isEmpty then 0
  else mean (filled.map (fun j => (((days_to_fill j).getD 0 : Int) : Rat)))

/-- `calculate_metrics` lines 190-194: count of candidates with
`dateadded >= now - 30 days`; a `NaT` comparison is `False`, so unparsed
dates are never counted.  `now` is the current day number. -/
def candidates_this_month (cands : List Candidate) (now : Int) : Nat :=
  (cands.filter (fun c =>
    match to_datetime c.dateadded with
    | some d => decide ((d : Int) ≥ now - 30)
    | none => false)).length

/-- `calculate_metrics` lines 197-198: `value_counts` sorts sources by
descending count, ties kept in first-seen order, and `index[0]` takes the
head; modelled as a fold over the first-seen-ordered distinct sources that
replaces the incumbent only on a strictly larger count.  `none` when the
series of sources is empty. -/
def top_source (cands : List Candidate) : Option String :=
  let srcs := cands.map (fun c => c.source)
  match srcs.dedup with
  | [] => none
  | h :: t => some (t.foldl (fun best s =>
      if srcs.count s > srcs.count best then s else best) h)

/-- The dictionary returned by `calculate_metrics`: a field is `none`
exactly when the corresponding key is absent from the Python dict. -/
structure Metrics where
  total_jobs : Option Nat := none
  open_jobs : Option Nat := none
  closed_jobs : Option Nat := none
  avg_time_to_fill : Option Rat := none
  total_candidates : Option Nat := none
  candidates_this_month : Option Nat := none
  top_source : Option String := none
deriving Repr, DecidableEq

/-- `calculate_metrics`: the job-keyed entries are set only when the jobs
frame is non-empty, the candidate-keyed entries only when the candidates
frame is non-empty. -/
def calculate_metrics (jobs : List Job) (cands : List Candidate)
    (now : Int) : Metrics :=
  let m1 : Metrics :=
    if jobs.isEmpty then {} else
      { total_jobs := some jobs.length
        open_jobs := some (jobs.filter (fun j => j.status == "open")).length
        closed_jobs := some (jobs.filter (fun j => j.status == "closed")).length
        avg_time_to_fill := some (avg_time_to_fill jobs) }
  if cands.isEmpty then m1 else
    { m1 with
      total_candidates := some cands.length
      candidates_this_month := some (candidates_this_month cands now)
      top_source := some (match top_source cands with
        | some s => s
        | none => "N/A") }

/-- Lexicographic order on character lists by code point: how Python (and
hence pandas group-key sorting on string columns) orders strings. -/
def lexLe : List Char → List Char → Bool
  | [], _ => true
  | _ :: _, [] => false
  | a :: as, b :: bs =>
    if a.toNat < b.toNat then true
    else if b.toNat < a.toNat then false
    else lexLe as bs

/-- String order by code-point-lexicographic comparison of the characters. -/
abbrev strLeRel (a b : String) : Prop := lexLe a.data b.data = true

/-- Group keys of a pandas `groupby` on a string column: the distinct
values, sorted ascending (`groupby` defaults to `sort=True`). -/
def sortedKeys (xs : List String) : List String :=
  xs.dedup.insertionSort strLeRel

/-- Group keys of a pandas `groupby` on a numeric (week-period) column:
the distinct values, sorted ascending. -/
def sortedKeysNat (xs : List Nat) : List Nat :=
  xs.dedup.insertionSort (fun a b => a ≤ b)

/-- Group mean of `days_to_fill` (`Series.mean`): skips nulls, null when
every value of the group is null. -/
def mean_days (js : List Job) : Option Rat :=
  let ds := js.filterMap days_to_fill
  if ds.isEmpty then none
  else some (mean (ds.map (fun d => (d : Rat))))

/-- One row of `position_metrics` in `create_position_metrics_chart`. -/
structure PositionRow where
  position : String
  total_jobs : Nat
  avg_days_to_fill : Option Rat
  open_jobs : Nat
deriving Repr, DecidableEq

/-- `create_position_metrics_chart` lines 208-215:
`jobs_df.groupby('title').agg(count, mean, open-sum)` followed by
`.head(15)`.  Group keys come out sorted ascending and `head` keeps the
first 15 rows in that order. -/
def position_metrics (jobs : List Job) : List PositionRow :=
  ((sortedKeys (jobs.map (fun j => j.title))).map (fun t =>
    let g := jobs.filter (fun j => j.title == t)
    { position := t
      total_jobs := g.length
      avg_days_to_fill := mean_days g
      open_jobs := (g.filter (fun j => j.status == "open")).length })).take 15

/-- `create_recruiter_metrics_chart` lines 261-265: per-recruiter job count
and mean days-to-fill, one row per distinct recruiter, keys sorted. -/
def recruiter_jobs (jobs : List Job) : List (String × Nat × Option Rat) :=
  (sortedKeys (jobs.map (fun j => j.recruiter))).map (fun r =>
    let g := jobs.filter (fun j => j.recruiter == r)
    (r, g.length, mean_days g))

/-- `create_recruiter_metrics_chart` lines 268-269: per-recruiter candidate
count (`groupby('recruiter').size()`). -/
def recruiter_candidates (cands : List Candidate) : List (String × Nat) :=
  (sortedKeys (cands.map (fun c => c.recruiter))).map (fun r =>
    (r, (cands.filter (fun c => c.recruiter == r)).length))

/-- `pd.merge(recruiter_jobs, recruiter_candidates, on='Recruiter',
how='outer')` on frames whose key columns are unique and sorted: one row
per key of the sorted union of both key sets, each side's columns null when
that side lacks the key. -/
def merge_outer (l : List (String × Nat × Option Rat))
    (r : List (String × Nat)) :
    List (String × Option (Nat × Option Rat) × Option Nat) :=
  (sortedKeys (l.map (fun p => p.1) ++ r.map (fun p => p.1))).map (fun k =>
    (k, (l.find? (fun p => p.1 == k)).map (fun p => p.2),
        (r.find? (fun p => p.1 == k)).map (fun p => p.2)))

/-- One row of `recruiter_metrics` together with the `efficiency` series of
`create_recruiter_metrics_chart`. -/
structure RecruiterRow where
  recruiter : String
  total_jobs : Nat
  avg_days_to_fill : Rat
  total_candidates : Nat
  efficiency : Rat
deriving Repr, DecidableEq

/-- `create_recruiter_metrics_chart` lines 272-273 and 305: outer-merge the
two per-recruiter frames, `fillna(0)`, `head(10)`, and the efficiency
series `Total_Candidates / (Total_Jobs + 1)`. -/
def recruiter_metrics (jobs : List Job) (cands : List Candidate) :
    List RecruiterRow :=
  ((merge_outer (recruiter_jobs jobs) (recruiter_candidates cands)).take 10).map
    (fun row =>
      let tj := ((row.2.1).map (fun p => p.1)).getD 0
      let avg := ((row.2.1).bind (fun p => p.2)).getD 0
      let tc := (row.2.2).getD 0
      { recruiter := row.1
        total_jobs := tj
        avg_days_to_fill := avg
        total_candidates := tc
        efficiency := (tc : Rat) / ((tj : Rat) + 1) })

/-- `create_timeline_chart` lines 328-329: `groupby('week').size()`; null
week buckets (unparsed `dateadded`) are dropped by `groupby`, keys come out
sorted, i.e. chronologically. -/
def weekly_data (cands : List Candidate) : List (Nat × Nat) :=
  let ws := cands.filterMap week
  (sortedKeysNat ws).map (fun w => (w, ws.count w))

/-- A JSON value, the result of `response.json()`. -/
inductive Json where
  | null
  | bool (b : Bool)
  | str (s : String)
  | num (n : Int)
  | arr (elems : List Json)
  | obj (fields : List (String × Json))

/-- Python `data.get(key, default)` on the parsed response: dictionary
lookup when `data` is a dict, otherwise an `AttributeError` escapes (the
`except` clauses of the connector only catch `RequestException`). -/
def jsonGet (j : Json) (key : String) (dflt : Json) : Except String Json :=
  match j with
  | .obj fields =>
    .ok (((fields.find? (fun p => p.1 == key)).map (fun p => p.2)).getD dflt)
  | _ => .error "AttributeError"

/-- Outcome of one HTTP request made by the connector:
* `requestError` — network failure or non-2xx status (`raise_for_status`),
  i.e. a `requests.exceptions.RequestException`;
* `invalidJson` — 2xx but the body is not JSON, so `response.json()`
  raises `requests.exceptions.JSONDecodeError`, a subclass of
  `RequestException` and hence caught by the same handler;
* `body j` — 2xx with parsed JSON value `j`. -/
inductive HttpOutcome where
  | requestError
  | invalidJson
  | body (j : Json)

/-- `ICIMSConnector.get_jobs`: with no token and a failing `authenticate`
it returns `[]`; a caught `RequestException` (network, HTTP error status,
undecodable body) prints and returns `[]`; otherwise it evaluates
`data.get('jobs', [])` on the parsed body.  `Except.ok v` is the value
returned to the caller, `Except.error e` an exception `e` escaping. -/
def get_jobs (has_token auth_ok : Bool) (response : HttpOutcome) :
    Except String Json :=
  if !has_token && !auth_ok then .ok (Json.arr [])
  else
    match response with
    | .requestError => .ok (Json.arr [])
    | .invalidJson => .ok (Json.arr [])
    | .body j => jsonGet j "jobs" (Json.arr [])

/-- `ICIMSConnector.get_candidates`: same shape as `get_jobs` with key
`'candidates'`. -/
def get_candidates (has_token auth_ok : Bool) (response : HttpOutcome) :
    Except String Json :=
  if !has_token && !auth_ok then .ok (Json.arr [])
  else
    match response with
    | .requestError => .ok (Json.arr [])
    | .invalidJson => .ok (Json.arr [])
    | .body j => jsonGet j "candidates" (Json.arr [])

/-- `ICIMSConnector.get_workflow_steps`: same shape with key `'steps'`. -/
def get_workflow_steps (has_token auth_ok : Bool) (response : HttpOutcome) :
    Except String Json :=
  if !has_token && !auth_ok then .ok (Json.arr [])
  else
    match response with
    | .requestError => .ok (Json.arr [])
    | .invalidJson => .ok (Json.arr [])
    | .body j => jsonGet j "steps" (Json.arr [])

/-! Concrete records used to instantiate the theorems. -/

/-- A job record with the given id, title, status, dates and recruiter. -/
def mkJob (i t st dp dc r : String) : Job :=
  { id := i, title := t, department := "Engineering", location := "NYC",
    status := st, dateposted := dp, dateclosed := dc, recruiter := r }

/-- A candidate record with the given id, source, date added and
recruiter. -/
def mkCand (i src da r : String) : Candidate :=
  { id := i, firstname := "F", lastname := "L", email := "f@l", phone := "1",
    status := "active", source := src, dateadded := da, jobid := "7",
    recruiter := r }

/-- Scenario of the spec's recruiter example: Recruiter A has 2 jobs,
Recruiter B none. -/
def c2_jobs : List Job :=
  [mkJob "1" "Engineer" "closed" "2024-01-01" "2024-01-11" "A",
   mkJob "2" "Engineer" "open" "2024-01-05" "" "A"]

/-- Recruiter A has 5 candidates, Recruiter B has 3. -/
def c2_cands : List Candidate :=
  [mkCand "1" "web" "2024-01-05" "A", mkCand "2" "web" "2024-01-05" "A",
   mkCand "3" "referral" "2024-01-06" "A", mkCand "4" "web" "2024-01-07" "A",
   mkCand "5" "web" "2024-01-08" "A", mkCand "6" "web" "2024-01-05" "B",
   mkCand "7" "web" "2024-01-06" "B", mkCand "8" "board" "2024-01-07" "B"]

/-- 17 jobs over 16 titles: title "p" appears first in the input and is the
only title with 2 jobs (every other title has 1). -/
def c3_jobs : List Job :=
  [mkJob "1" "p" "open" "2024-01-01" "" "A",
   mkJob "2" "p" "open" "2024-01-01" "" "A",
   mkJob "3" "a" "open" "2024-01-01" "" "A",
   mkJob "4" "b" "open" "2024-01-01" "" "A",
   mkJob "5" "c" "open" "2024-01-01" "" "A",
   mkJob "6" "d" "open" "2024-01-01" "" "A",
   mkJob "7" "e" "open" "2024-01-01" "" "A",
   mkJob "8" "f" "open" "2024-01-01" "" "A",
   mkJob "9" "g" "open" "2024-01-01" "" "A",
   mkJob "10" "h" "open" "2024-01-01" "" "A",
   mkJob "11" "i" "open" "2024-01-01" "" "A",
   mkJob "12" "j" "open" "2024-01-01" "" "A",
   mkJob "13" "k" "open" "2024-01-01" "" "A",
   mkJob "14" "l" "open" "2024-01-01" "" "A",
   mkJob "15" "m" "open" "2024-01-01" "" "A",
   mkJob "16" "n" "open" "2024-01-01" "" "A",
   mkJob "17" "o" "open" "2024-01-01" "" "A"]

/-- A job whose `dateclosed` string does not parse. -/
def c4_bad_job : Job := mkJob "9" "Engineer" "open" "2024-01-01" "TBD" "A"

/-- A job with both dates valid. -/
def c4_good_job : Job :=
  mkJob "1" "Engineer" "closed" "2024-01-01" "2024-01-11" "A"

/-- A candidate whose `dateadded` string does not parse. -/
def c4_bad_cand : Candidate := mkCand "9" "web" "unknown" "A"

/-- A candidate with a valid `dateadded`. -/
def c4_good_cand : Candidate := mkCand "1" "web" "2024-01-05" "A"

/-- The spec's example job: posted 2024-01-01, closed 2024-01-11. -/
def c6_job : Job := mkJob "1" "Engineer" "closed" "2024-01-01" "2024-01-11" "A"

/-- A candidate added on 2024-06-01, far in the future of the `now` used
in the claim-C9 instances (day 739191 = 2024-01-01). -/
def c9_future_cand : Candidate := mkCand "1" "web" "2024-06-01" "A"

/-- The count the claim describes for `candidates_this_month`: parsed
`date_added` between `now - 30` and `now`.  Modelled from the spec words
"within the last 30 days of now, i.e. between now − 30 days and now", to
be compared with the code's `candidates_this_month`. -/
def candidates_this_month_claimed (cands : List Candidate) (now : Int) : Nat :=
  (cands.filter (fun c =>
    match to_datetime c.dateadded with
    | some d => decide (now - 30 ≤ (d : Int) ∧ (d : Int) ≤ now)
    | none => false)).length

/-! ### Order properties of the group-key comparison -/

theorem char_toNat_inj {a b : Char} (h : a.toNat = b.toNat) : a = b := by
  unfold Char.toNat at h
  exact Char.ext (UInt32.toNat.inj h)

theorem lexLe_total : ∀ as bs : List Char, lexLe as bs = true ∨ lexLe bs as = true
  | [], _ => Or.inl rfl
  | _ :: _, [] => Or.inr rfl
  | a :: as, b :: bs => by
    simp only [lexLe]
    rcases Nat.lt_trichotomy a.toNat b.toNat with h | h | h
    · left; simp [h]
    · rcases lexLe_total as bs with ht | ht
      · left; simp [h, ht]
      · right; simp [h, ht]
    · right; simp [h]

theorem lexLe_trans : ∀ {as bs cs : List Char},
    lexLe as bs = true → lexLe bs cs = true → lexLe as cs = true
  | [], _, _, _, _ => rfl
  | _ :: _, [], _, h₁, _ => by simp [lexLe] at h₁
  | _ :: _, _ :: _, [], _, h₂ => by simp [lexLe] at h₂
  | a :: as, b :: bs, c :: cs, h₁, h₂ => by
    simp only [lexLe] at h₁ h₂ ⊢
    split_ifs at h₁ h₂ ⊢ <;>
      first
        | rfl
        | omega
        | exact absurd h₁ (by decide)
        | exact absurd h₂ (by decide)
        | exact lexLe_trans h₁ h₂

theorem lexLe_antisymm : ∀ {as bs : List Char},
    lexLe as bs = true → lexLe bs as = true → as = bs
  | [], [], _, _ => rfl
  | _ :: _, [], h₁, _ => by simp [lexLe] at h₁
  | [], _ :: _, _, h₂ => by simp [lexLe] at h₂
  | a :: as, b :: bs, h₁, h₂ => by
    simp only [lexLe] at h₁ h₂
    split_ifs at h₁ h₂ <;>
      first
        | omega
        | exact absurd h₁ (by decide)
        | exact absurd h₂ (by decide)
        | exact congrArg₂ (· :: ·)
            (char_toNat_inj (by omega)) (lexLe_antisymm h₁ h₂)

theorem strLeRel_total (a b : String) : strLeRel a b ∨ strLeRel b a :=
  lexLe_total a.data b.data

theorem strLeRel_trans {a b c : String} (h₁ : strLeRel a b)
    (h₂ : strLeRel b c) : strLeRel a c :=
  lexLe_trans h₁ h₂

theorem strLeRel_antisymm {a b : String} (h₁ : strLeRel a b)
    (h₂ : strLeRel b a) : a = b :=
  String.ext (lexLe_antisymm h₁ h₂)

/-! ### Facts about the group-key lists -/

theorem mem_sortedKeys {a : String} {xs : List String} :
    a ∈ sortedKeys xs ↔ a ∈ xs := by
  unfold sortedKeys
  rw [(List.perm_insertionSort strLeRel xs.dedup).mem_iff, List.mem_dedup]

theorem sortedKeys_nodup (xs : List String) : (sortedKeys xs).Nodup :=
  (List.perm_insertionSort strLeRel xs.dedup).nodup_iff.2 (List.nodup_dedup xs)

theorem sortedKeys_sorted (xs : List String) :
    List.Sorted strLeRel (sortedKeys xs) := by
  haveI : IsTotal String strLeRel := ⟨strLeRel_total⟩
  haveI : IsTrans String strLeRel := ⟨fun _ _ _ => strLeRel_trans⟩
  exact List.sorted_insertionSort strLeRel xs.dedup

theorem sortedKeys_append_sortedKeys (as bs : List String) :
    sortedKeys (sortedKeys as ++ sortedKeys bs) = sortedKeys (as ++ bs) := by
  haveI : IsAntisymm String strLeRel := ⟨fun _ _ => strLeRel_antisymm⟩
  refine List.eq_of_perm_of_sorted ?_ (sortedKeys_sorted _) (sortedKeys_sorted _)
  rw [List.perm_ext_iff_of_nodup (sortedKeys_nodup _) (sortedKeys_nodup _)]
  intro a
  simp [mem_sortedKeys, List.mem_append]

theorem mem_sortedKeysNat {a : Nat} {xs : List Nat} :
    a ∈ sortedKeysNat xs ↔ a ∈ xs := by
  unfold sortedKeysNat
  rw [(List.perm_insertionSort _ xs.dedup).mem_iff, List.mem_dedup]

theorem sortedKeysNat_sorted (xs : List Nat) :
    List.Sorted (fun a b => a ≤ b) (sortedKeysNat xs) :=
  List.sorted_insertionSort _ xs.dedup

theorem sum_counts_sortedKeysNat (ws : List Nat) :
    ((sortedKeysNat ws).map (fun w => ws.count w)).sum = ws.length := by
  unfold sortedKeysNat
  have hperm :
      ((ws.dedup.insertionSort (fun a b => a ≤ b)).map (fun w => ws.count w)).Perm
        (ws.dedup.map (fun w => ws.count w)) :=
    (List.perm_insertionSort _ ws.dedup).map _
  rw [hperm.sum_eq]
  simpa using List.sum_map_count_dedup_eq_length ws

/-! ### List helpers for the aggregation proofs -/

theorem find?_keyed {β : Type} (ks : List String) (f : String → β) (k : String) :
    ((ks.map (fun x => (x, f x))).find? (fun p => p.1 == k)) =
      if k ∈ ks then some (k, f k) else none := by
  induction ks with
  | nil => rfl
  | cons a t ih =>
    simp only [List.map_cons]
    by_cases h : a = k
    · subst h
      rw [List.find?_cons_of_pos _ (by simp)]
      simp
    · rw [List.find?_cons_of_neg _ (by simp [h])]
      simp [ih, h, Ne.symm h]

theorem filter_isSome_map_getD {α β : Type} (f : α → Option β) (d : β) :
    ∀ l : List α,
      (l.filter (fun a => (f a).isSome)).map (fun a => (f a).getD d) =
        l.filterMap f
  | [] => rfl
  | a :: t => by
    cases h : f a <;>
      simp [List.filter_cons, List.filterMap_cons, h,
        filter_isSome_map_getD f d t]

theorem length_filterMap_eq_iff {α β : Type} (f : α → Option β) :
    ∀ l : List α,
      ((l.filterMap f).length = l.length ↔ ∀ a ∈ l, (f a).isSome = true)
  | [] => by simp
  | a :: t => by
    cases h : f a with
    | none =>
      simp only [List.filterMap_cons, h, List.length_cons, List.forall_mem_cons]
      constructor
      · intro hlen
        exact absurd hlen (by have := List.length_filterMap_le f t; omega)
      · intro hall
        exact absurd hall.1 (by simp [h])
    | some b =>
      simp [List.filterMap_cons, h, length_filterMap_eq_iff f t]

/-! ### Claim theorems -/

/-- C1, counterexample: on empty jobs and candidates inputs
`calculate_metrics` returns a dictionary with *no* entries at all — the
totals are not present with value 0, and `top_source` is not present with
value "N/A". -/
theorem C1_counterexample :
    (calculate_metrics [] [] 0).total_jobs ≠ some 0 ∧
    (calculate_metrics [] [] 0).total_candidates ≠ some 0 ∧
    (calculate_metrics [] [] 0).avg_time_to_fill ≠ some 0 ∧
    (calculate_metrics [] [] 0).top_source ≠ some "N/A" :=
  ⟨by decide, by decide, by decide, by decide⟩

/-- C1, amended: for empty jobs and candidates inputs `calculate_metrics`
returns the empty mapping — every key (total_jobs, open_jobs, closed_jobs,
avg_time_to_fill, total_candidates, candidates_this_month, top_source) is
absent — and completes without raising (it is a total function). -/
theorem C1_empty_metrics (now : Int) :
    calculate_metrics [] [] now =
      { total_jobs := none, open_jobs := none, closed_jobs := none,
        avg_time_to_fill := none, total_candidates := none,
        candidates_this_month := none, top_source := none } := rfl

/-- C6: whenever both dates of a job parse, `days_to_fill` is the whole-day
difference closed − posted. -/
theorem C6_days_to_fill (j : Job) (p c : Nat)
    (hp : to_datetime j.dateposted = some p)
    (hc : to_datetime j.dateclosed = some c) :
    days_to_fill j = some ((c : Int) - (p : Int)) := by
  unfold days_to_fill
  rw [hc, hp]

/-- C6 witness: the spec's example job, posted 2024-01-01 (day 739191) and
closed 2024-01-11 (day 739201), has `days_to_fill = 10`. -/
theorem C6_days_to_fill_witness :
    to_datetime c6_job.dateposted = some 739191 ∧
    to_datetime c6_job.dateclosed = some 739201 ∧
    days_to_fill c6_job = some 10 :=
  ⟨by decide, by decide,
    (C6_days_to_fill c6_job 739191 739201 (by decide) (by decide)).trans
      (by norm_num)⟩

/-- C8: network/HTTP errors, authentication failure and an undecodable
body all degrade to an empty list returned to the caller (with the error
printed), for each of the three fetchers; but a body that is valid JSON
while not a JSON object escapes `data.get` as an `AttributeError`, which
no `except` clause catches — contradicting the stated policy that no
fetch failure propagates a crash. -/
theorem C8_adapter_failures :
    get_jobs true true (.body (Json.arr [])) = .error "AttributeError" ∧
    get_candidates true true (.body (Json.str "oops")) = .error "AttributeError" ∧
    get_jobs true true .requestError = .ok (Json.arr []) ∧
    get_jobs true true .invalidJson = .ok (Json.arr []) ∧
    get_jobs false false .requestError = .ok (Json.arr []) ∧
    get_candidates true true .requestError = .ok (Json.arr []) ∧
    get_candidates false false .requestError = .ok (Json.arr []) ∧
    get_workflow_steps true true .requestError = .ok (Json.arr []) ∧
    get_workflow_steps true true .invalidJson = .ok (Json.arr []) :=
  ⟨rfl, rfl, rfl, rfl, rfl, rfl, rfl, rfl, rfl⟩

/-- C4: a job whose `days_to_fill` is undefined (some date failed to
parse) and a candidate whose `dateadded` failed to parse are excluded from
every date-dependent aggregate: removing such a record changes no
mean/sum/count computed over dates.  All operations are total functions of
the embedding, so nothing raises. -/
theorem C4_malformed_dates_excluded
    (jobs₁ jobs₂ : List Job) (j : Job) (cs₁ cs₂ : List Candidate)
    (c : Candidate) (now : Int)
    (hj : days_to_fill j = none)
    (hc : to_datetime c.dateadded = none) :
    avg_time_to_fill (jobs₁ ++ j :: jobs₂) = avg_time_to_fill (jobs₁ ++ jobs₂) ∧
    mean_days (jobs₁ ++ j :: jobs₂) = mean_days (jobs₁ ++ jobs₂) ∧
    weekly_data (cs₁ ++ c :: cs₂) = weekly_data (cs₁ ++ cs₂) ∧
    candidates_this_month (cs₁ ++ c :: cs₂) now =
      candidates_this_month (cs₁ ++ cs₂) now := by
  have hw : week c = none := by unfold week; rw [hc]; rfl
  refine ⟨?_, ?_, ?_, ?_⟩
  · unfold avg_time_to_fill
    rw [List.filter_append, List.filter_append, List.filter_cons]
    simp [hj]
  · unfold mean_days
    rw [List.filterMap_append, List.filterMap_append, List.filterMap_cons]
    simp [hj]
  · unfold weekly_data
    rw [List.filterMap_append, List.filterMap_append, List.filterMap_cons]
    simp [hw]
  · unfold candidates_this_month
    rw [List.filter_append, List.filter_append, List.filter_cons]
    simp [hc]

/-- C4 witness: a job closed "TBD" and a candidate added "unknown" are
malformed, and dropping them leaves every date-dependent aggregate
unchanged. -/
theorem C4_malformed_dates_excluded_witness :
    days_to_fill c4_bad_job = none ∧
    to_datetime c4_bad_cand.dateadded = none ∧
    (avg_time_to_fill [c4_good_job, c4_bad_job] = avg_time_to_fill [c4_good_job] ∧
     mean_days [c4_good_job, c4_bad_job] = mean_days [c4_good_job] ∧
     weekly_data [c4_good_cand, c4_bad_cand] = weekly_data [c4_good_cand] ∧
     candidates_this_month [c4_good_cand, c4_bad_cand] 739191 =
       candidates_this_month [c4_good_cand] 739191) :=
  ⟨by decide, by decide,
    C4_malformed_dates_excluded [c4_good_job] [] c4_bad_job [c4_good_cand] []
      c4_bad_cand 739191 (by decide) (by decide)⟩

/-- C5: `avg_time_to_fill` is the arithmetic mean of exactly the defined
`days_to_fill` values (0 when there are none), and is unchanged by
restricting the input to the jobs whose `days_to_fill` is defined — jobs
with an unparseable or missing `date_closed` are excluded from the mean. -/
theorem C5_avg_time_to_fill (jobs : List Job) :
    avg_time_to_fill jobs =
      (if (jobs.filterMap days_to_fill).isEmpty then 0
       else mean ((jobs.filterMap days_to_fill).map (fun d => ((d : Int) : Rat)))) ∧
    avg_time_to_fill jobs =
      avg_time_to_fill (jobs.filter (fun j => (days_to_fill j).isSome)) := by
  have hkey : (jobs.filter (fun j => (days_to_fill j).isSome)).map
      (fun j => (days_to_fill j).getD 0) = jobs.filterMap days_to_fill :=
    filter_isSome_map_getD days_to_fill 0 jobs
  constructor
  · simp only [avg_time_to_fill]
    have hmap : (jobs.filter (fun j => (days_to_fill j).isSome)).map
        (fun j => (((days_to_fill j).getD 0 : Int) : Rat)) =
        (jobs.filterMap days_to_fill).map (fun d => ((d : Int) : Rat)) := by
      rw [← hkey, List.map_map]
      rfl
    have hemp : (jobs.filter (fun j => (days_to_fill j).isSome)).isEmpty =
        (jobs.filterMap days_to_fill).isEmpty := by
      rw [← hkey]
      cases jobs.filter (fun j => (days_to_fill j).isSome) <;> rfl
    rw [hemp, hmap]
  · simp only [avg_time_to_fill]
    rw [List.filter_filter]
    simp

/-- C7: `weekly_data` groups the candidates with a parsed `dateadded` by
week bucket; the week keys appear in chronological (non-decreasing, in
fact sorted) order, and the pairs are exactly the (week, number of
candidates in that week) for each occupied week. -/
theorem C7_weekly_data_chronological (cands : List Candidate) :
    List.Sorted (fun a b => a ≤ b) ((weekly_data cands).map (fun p => p.1)) ∧
    ∀ w n, (w, n) ∈ weekly_data cands ↔
      (w ∈ cands.filterMap week ∧ n = (cands.filterMap week).count w) := by
  constructor
  · simp only [weekly_data, List.map_map]
    have hid : ((fun p : Nat × Nat => p.1) ∘
        (fun w => (w, (cands.filterMap week).count w))) = id := rfl
    rw [hid, List.map_id]
    exact sortedKeysNat_sorted _
  · intro w n
    simp only [weekly_data]
    constructor
    · intro hmem
      obtain ⟨k, hk, heq⟩ := List.mem_map.1 hmem
      obtain ⟨h1, h2⟩ := Prod.mk.injEq .. ▸ heq
      subst h1
      subst h2
      exact ⟨mem_sortedKeysNat.1 hk, rfl⟩
    · rintro ⟨hw, rfl⟩
      exact List.mem_map.2 ⟨w, mem_sortedKeysNat.2 hw, rfl⟩

/-- `candidates_this_month` counts exactly the parsed `dateadded` values
that are at least `now - 30`. -/
theorem candidates_this_month_eq (cands : List Candidate) (now : Int) :
    candidates_this_month cands now =
      ((cands.filterMap (fun c => to_datetime c.dateadded)).filter
        (fun d => decide (((d : Nat) : Int) ≥ now - 30))).length := by
  induction cands with
  | nil => rfl
  | cons c t ih =>
    unfold candidates_this_month at ih ⊢
    rw [List.filterMap_cons]
    cases h : to_datetime c.dateadded with
    | none =>
      rw [List.filter_cons, h]
      exact ih
    | some d =>
      rw [List.filter_cons, h, List.filter_cons]
      by_cases hd : ((d : Nat) : Int) ≥ now - 30
      · rw [if_pos (decide_eq_true hd), if_pos (decide_eq_true hd)]
        exact congrArg (fun n => n + 1) ih
      · rw [if_neg (by simpa using hd), if_neg (by simpa using hd)]
        exact ih

/-- C9 counterexample: with "now" = day 739191 (2024-01-01), a candidate
added 2024-06-01 (day 739343, months in the future) is counted by the
code's `candidates_this_month`, although its `date_added` does not lie
between now − 30 days and now as the claim states. -/
theorem C9_counterexample :
    candidates_this_month [c9_future_cand] 739191 = 1 ∧
    candidates_this_month_claimed [c9_future_cand] 739191 = 0 ∧
    to_datetime c9_future_cand.dateadded = some 739343 ∧
    ¬ ((739343 : Int) ≤ 739191) :=
  ⟨by decide, by decide, by decide, by decide⟩

/-- C9, amended: for a non-empty candidates input,
`candidates_this_month` equals the number of candidates whose parsed
`date_added` is at least now − 30 days; there is no upper bound, so dates
after "now" are counted too, and unparsed dates are not counted. -/
theorem C9_candidates_this_month (jobs : List Job) (cands : List Candidate)
    (now : Int) (h : cands ≠ []) :
    (calculate_metrics jobs cands now).candidates_this_month =
      some (((cands.filterMap (fun c => to_datetime c.dateadded)).filter
        (fun d => decide (((d : Nat) : Int) ≥ now - 30))).length) := by
  obtain ⟨c, t, rfl⟩ := List.exists_cons_of_ne_nil h
  simp only [calculate_metrics, List.isEmpty_cons, if_neg Bool.false_ne_true]
  rw [← candidates_this_month_eq]

/-- C9 witness: at now = day 739191, of the two candidates (one added
2024-06-01 in the future, one added 2024-01-05) both are counted. -/
theorem C9_candidates_this_month_witness :
    ([c9_future_cand, c4_good_cand] : List Candidate) ≠ [] ∧
    (calculate_metrics [] [c9_future_cand, c4_good_cand]
      739191).candidates_this_month = some 2 := by
  refine ⟨by decide, ?_⟩
  rw [C9_candidates_this_month [] [c9_future_cand, c4_good_cand] 739191
    (by decide)]
  decide

/-- C10: for a non-empty candidates input, `total_candidates` counts every
record, while the weekly counts cover exactly the candidates whose
`dateadded` parsed; hence the weekly counts sum to at most
`total_candidates`, with equality iff every `dateadded` parses. -/
theorem C10_total_vs_weekly (jobs : List Job) (cands : List Candidate)
    (now : Int) (h : cands ≠ []) :
    (calculate_metrics jobs cands now).total_candidates = some cands.length ∧
    ((weekly_data cands).map (fun p => p.2)).sum =
      (cands.filterMap week).length ∧
    ((weekly_data cands).map (fun p => p.2)).sum ≤ cands.length ∧
    (((weekly_data cands).map (fun p => p.2)).sum = cands.length ↔
      ∀ c ∈ cands, (to_datetime c.dateadded).isSome = true) := by
  have hsum : ((weekly_data cands).map (fun p => p.2)).sum =
      (cands.filterMap week).length := by
    simp only [weekly_data, List.map_map]
    have hid : ((fun p : Nat × Nat => p.2) ∘
        (fun w => (w, (cands.filterMap week).count w))) =
        (fun w => (cands.filterMap week).count w) := rfl
    rw [hid]
    exact sum_counts_sortedKeysNat _
  have hle : (cands.filterMap week).length ≤ cands.length :=
    List.length_filterMap_le week cands
  refine ⟨?_, hsum, hsum ▸ hle, ?_⟩
  · obtain ⟨c, t, rfl⟩ := List.exists_cons_of_ne_nil h
    simp only [calculate_metrics, List.isEmpty_cons, if_neg Bool.false_ne_true]
  · rw [hsum, length_filterMap_eq_iff week cands]
    constructor
    · intro hall c hmem
      have := hall c hmem
      unfold week at this
      cases hcd : to_datetime c.dateadded
      · rw [hcd] at this; exact absurd this (by decide)
      · rfl
    · intro hall c hmem
      unfold week
      cases hcd : to_datetime c.dateadded
      · exact absurd (hcd ▸ hall c hmem) (by decide)
      · rfl

/-- C10 witness: with one parsed and one unparsed candidate, the weekly
counts sum to 1 while `total_candidates` is 2, and not every `dateadded`
parses. -/
theorem C10_total_vs_weekly_witness :
    ([c4_good_cand, c4_bad_cand] : List Candidate) ≠ [] ∧
    (calculate_metrics [] [c4_good_cand, c4_bad_cand] 0).total_candidates =
      some 2 ∧
    ((weekly_data [c4_good_cand, c4_bad_cand]).map (fun p => p.2)).sum = 1 := by
  have h := C10_total_vs_weekly [] [c4_good_cand, c4_bad_cand] 0 (by decide)
  exact ⟨by decide, h.1, by decide⟩

/-- C3 counterexample: in `c3_jobs`, title "p" appears first in the input
and is the only title with 2 jobs (all 15 others have 1), so under the
claim — groups ordered by first appearance, truncated to the 15 groups
with the highest counts — the "p" group must be in the result (indeed
first).  The code instead sorts groups by title and keeps the first 15 of
that order, dropping "p". -/
theorem C3_counterexample :
    "p" ∉ (position_metrics c3_jobs).map (fun r => r.position) ∧
    (c3_jobs.head?.map (fun j => j.title)) = some "p" ∧
    (c3_jobs.filter (fun j => j.title == "p")).length = 2 ∧
    ∀ t ∈ c3_jobs.map (fun j => j.title), t ≠ "p" →
      (c3_jobs.filter (fun j => j.title == t)).length = 1 :=
  ⟨by decide, by decide, by decide, by decide⟩

/-- C3, amended: `group_by_position` groups jobs by title, orders the
groups by *title* ascending (the pandas groupby default sort), and
truncates to the *first 15 groups in that title order* (`head(15)`),
regardless of job counts; each kept row aggregates exactly the jobs with
its title. -/
theorem C3_position_grouping (jobs : List Job) :
    (position_metrics jobs).map (fun r => r.position) =
      (sortedKeys (jobs.map (fun j => j.title))).take 15 ∧
    List.Sorted strLeRel ((position_metrics jobs).map (fun r => r.position)) ∧
    (position_metrics jobs).length ≤ 15 ∧
    ∀ row ∈ position_metrics jobs,
      row.total_jobs = (jobs.filter (fun j => j.title == row.position)).length ∧
      row.open_jobs = ((jobs.filter (fun j => j.title == row.position)).filter
        (fun j => j.status == "open")).length ∧
      row.avg_days_to_fill =
        mean_days (jobs.filter (fun j => j.title == row.position)) := by
  have hmap : (position_metrics jobs).map (fun r => r.position) =
      (sortedKeys (jobs.map (fun j => j.title))).take 15 := by
    unfold position_metrics
    rw [List.map_take, List.map_map]
    exact congrArg (List.take 15) (List.map_id _)
  refine ⟨hmap, ?_, ?_, ?_⟩
  · rw [hmap]
    exact List.Pairwise.sublist (List.take_sublist _ _) (sortedKeys_sorted _)
  · have hlen := congrArg List.length hmap
    rw [List.length_map] at hlen
    rw [hlen]
    exact List.length_take_le _ _
  · intro row hrow
    unfold position_metrics at hrow
    obtain ⟨t, ht, rfl⟩ := List.mem_map.1 ((List.take_sublist _ _).subset hrow)
    exact ⟨rfl, rfl, rfl⟩

/-- Characterization of `recruiter_metrics`: one row per recruiter of the
sorted union of both key sets (the full outer join), truncated to the
first 10; each side's aggregates are zero-filled exactly when that
recruiter is absent from the side (in which case the filter below is empty
anyway), and efficiency is candidates / (jobs + 1). -/
theorem recruiter_metrics_eq (jobs : List Job) (cands : List Candidate) :
    recruiter_metrics jobs cands =
      ((sortedKeys (jobs.map (fun j => j.recruiter) ++
          cands.map (fun c => c.recruiter))).take 10).map (fun k =>
        { recruiter := k
          total_jobs := (jobs.filter (fun j => j.recruiter == k)).length
          avg_days_to_fill :=
            (mean_days (jobs.filter (fun j => j.recruiter == k))).getD 0
          total_candidates := (cands.filter (fun c => c.recruiter == k)).length
          efficiency :=
            ((cands.filter (fun c => c.recruiter == k)).length : Rat) /
              (((jobs.filter (fun j => j.recruiter == k)).length : Rat) + 1) }) := by
  have hL : recruiter_jobs jobs =
      (sortedKeys (jobs.map (fun j => j.recruiter))).map
        (fun r => (r, (jobs.filter (fun j => j.recruiter == r)).length,
          mean_days (jobs.filter (fun j => j.recruiter == r)))) := rfl
  have hR : recruiter_candidates cands =
      (sortedKeys (cands.map (fun c => c.recruiter))).map
        (fun r => (r, (cands.filter (fun c => c.recruiter == r)).length)) := rfl
  have hKL : (recruiter_jobs jobs).map (fun p => p.1) =
      sortedKeys (jobs.map (fun j => j.recruiter)) := by
    rw [hL, List.map_map]
    exact List.map_id _
  have hKR : (recruiter_candidates cands).map (fun p => p.1) =
      sortedKeys (cands.map (fun c => c.recruiter)) := by
    rw [hR, List.map_map]
    exact List.map_id _
  unfold recruiter_metrics merge_outer
  rw [hKL, hKR, sortedKeys_append_sortedKeys, List.map_take, List.map_take,
    List.map_map]
  refine congrArg (List.take 10) (List.map_congr_left ?_)
  intro k hk
  have hfL : (recruiter_jobs jobs).find? (fun p => p.1 == k) =
      if k ∈ sortedKeys (jobs.map (fun j => j.recruiter)) then
        some (k, (jobs.filter (fun j => j.recruiter == k)).length,
          mean_days (jobs.filter (fun j => j.recruiter == k)))
      else none := by
    rw [hL]
    exact find?_keyed _ _ k
  have hfR : (recruiter_candidates cands).find? (fun p => p.1 == k) =
      if k ∈ sortedKeys (cands.map (fun c => c.recruiter)) then
        some (k, (cands.filter (fun c => c.recruiter == k)).length)
      else none := by
    rw [hR]
    exact find?_keyed _ _ k
  simp only [Function.comp_apply]
  rw [hfL, hfR]
  by_cases hJk : k ∈ sortedKeys (jobs.map (fun j => j.recruiter)) <;>
    by_cases hCk : k ∈ sortedKeys (cands.map (fun c => c.recruiter))
  · rw [if_pos hJk, if_pos hCk]
    rfl
  · rw [if_pos hJk, if_neg hCk]
    have hfilC : cands.filter (fun c => c.recruiter == k) = [] :=
      List.filter_eq_nil_iff.2 (fun c hcm hbeq => hCk (mem_sortedKeys.2
        ((beq_iff_eq.1 hbeq) ▸ List.mem_map_of_mem (fun c => c.recruiter) hcm)))
    rw [hfilC]
    rfl
  · rw [if_neg hJk, if_pos hCk]
    have hfilJ : jobs.filter (fun j => j.recruiter == k) = [] :=
      List.filter_eq_nil_iff.2 (fun j hjm hbeq => hJk (mem_sortedKeys.2
        ((beq_iff_eq.1 hbeq) ▸ List.mem_map_of_mem (fun j => j.recruiter) hjm)))
    rw [hfilJ]
    rfl
  · rw [if_neg hJk, if_neg hCk]
    have hfilJ : jobs.filter (fun j => j.recruiter == k) = [] :=
      List.filter_eq_nil_iff.2 (fun j hjm hbeq => hJk (mem_sortedKeys.2
        ((beq_iff_eq.1 hbeq) ▸ List.mem_map_of_mem (fun j => j.recruiter) hjm)))
    have hfilC : cands.filter (fun c => c.recruiter == k) = [] :=
      List.filter_eq_nil_iff.2 (fun c hcm hbeq => hCk (mem_sortedKeys.2
        ((beq_iff_eq.1 hbeq) ▸ List.mem_map_of_mem (fun c => c.recruiter) hcm)))
    rw [hfilJ, hfilC]
    rfl

/-- C2: for non-empty inputs, `recruiter_metrics` is the full outer join
of the per-recruiter job aggregates and candidate counts on recruiter
identity — one row per recruiter occurring on either side (sorted keys,
first 10 kept) — with the missing side zero-filled (the row's counts equal
the plain per-recruiter filters, which are 0 for the missing side), and
efficiency = total_candidates / (total_jobs + 1) on every row. -/
theorem C2_recruiter_outer_join (jobs : List Job) (cands : List Candidate)
    (hj : jobs ≠ []) (hc : cands ≠ []) :
    ((recruiter_metrics jobs cands).map (fun r => r.recruiter) =
      (sortedKeys (jobs.map (fun j => j.recruiter) ++
        cands.map (fun c => c.recruiter))).take 10) ∧
    ∀ row ∈ recruiter_metrics jobs cands,
      row.total_jobs = (jobs.filter (fun j => j.recruiter == row.recruiter)).length ∧
      row.total_candidates =
        (cands.filter (fun c => c.recruiter == row.recruiter)).length ∧
      row.efficiency =
        (row.total_candidates : Rat) / ((row.total_jobs : Rat) + 1) := by
  constructor
  · rw [recruiter_metrics_eq, List.map_map]
    exact List.map_id _
  · intro row hrow
    rw [recruiter_metrics_eq] at hrow
    obtain ⟨k, hk, rfl⟩ := List.mem_map.1 hrow
    exact ⟨rfl, rfl, rfl⟩

/-- C2 witness: the spec's example — Recruiter A with 2 jobs and 5
candidates, Recruiter B with no jobs and 3 candidates — produces a row for
B (via the outer join) with efficiency 3/(0+1) = 3 and a row for A with
efficiency 5/(2+1) = 5/3. -/
theorem C2_recruiter_outer_join_witness :
    c2_jobs ≠ [] ∧ c2_cands ≠ [] ∧
    (∃ row ∈ recruiter_metrics c2_jobs c2_cands,
      row.recruiter = "B" ∧ row.total_jobs = 0 ∧ row.total_candidates = 3 ∧
      row.efficiency = 3) ∧
    (∃ row ∈ recruiter_metrics c2_jobs c2_cands,
      row.recruiter = "A" ∧ row.total_jobs = 2 ∧ row.total_candidates = 5 ∧
      row.efficiency = 5 / 3) := by
  have h := C2_recruiter_outer_join c2_jobs c2_cands (by decide) (by decide)
  refine ⟨by decide, by decide, ?_, ?_⟩
  · have hm : ("B", 0, 3) ∈ (recruiter_metrics c2_jobs c2_cands).map
        (fun r => (r.recruiter, r.total_jobs, r.total_candidates)) := by decide
    obtain ⟨row, hrow, heq⟩ := List.mem_map.1 hm
    simp only [Prod.mk.injEq] at heq
    obtain ⟨h1, h2, h3⟩ := heq
    have heff := (h.2 row hrow).2.2
    rw [h2, h3] at heff
    refine ⟨row, hrow, h1, h2, h3, ?_⟩
    rw [heff]
    norm_num
  · have hm : ("A", 2, 5) ∈ (recruiter_metrics c2_jobs c2_cands).map
        (fun r => (r.recruiter, r.total_jobs, r.total_candidates)) := by decide
    obtain ⟨row, hrow, heq⟩ := List.mem_map.1 hm
    simp only [Prod.mk.injEq] at heq
    obtain ⟨h1, h2, h3⟩ := heq
    have heff := (h.2 row hrow).2.2
    rw [h2, h3] at heff
    refine ⟨row, hrow, h1, h2, h3, ?_⟩
    rw [heff]
    norm_num

end ICIMS
